import Mathlib

/-!
# Verification of the SPH fluid solver core

A shallow embedding, over exact real arithmetic, of the simulation engine of
the `visual-fluid-dynamics` repository: the SPH kernel evaluators
(`src/core/kernel.py`), the spatial hash grid (`src/core/spatial_hash.py`),
the particle store (`src/core/particle.py`), and the solver pipeline
(`src/core/sph_solver.py`).  Floating-point numbers are idealised as real
numbers; machine arrays are modelled as total functions from indices, with
the live count marking the active prefix, exactly as the numpy arrays of the
source are fixed-capacity buffers whose first `n` slots are live.
-/

open Real

/-- A 3-component vector, as the source's numpy arrays of shape `(3,)`. -/
abbrev Vec3 (α : Type) := Fin 3 → α

namespace SPH

/-- Euclidean norm squared of a 3-vector: the sum of squared components. -/
def normSq (v : Vec3 ℝ) : ℝ := v 0 ^ 2 + v 1 ^ 2 + v 2 ^ 2

/-- Source `np.linalg.norm`: the Euclidean norm, square root of the sum of squares. -/
noncomputable def norm3 (v : Vec3 ℝ) : ℝ := Real.sqrt (normSq v)

lemma normSq_nonneg (v : Vec3 ℝ) : 0 ≤ normSq v := by
  have := sq_nonneg (v 0); have := sq_nonneg (v 1); have := sq_nonneg (v 2)
  unfold normSq; linarith

lemma norm3_nonneg (v : Vec3 ℝ) : 0 ≤ norm3 v := Real.sqrt_nonneg _

/-! ## Kernel evaluators (`src/core/kernel.py`, class `SPHKernel`) -/

/-- Source `SPHKernel.poly6`: returns `0` when `|r| > h`, otherwise
`315/(64 π h⁹) · (h² − |r|²)³`. -/
noncomputable def poly6 (r : Vec3 ℝ) (h : ℝ) : ℝ :=
  let r_norm := norm3 r
  if r_norm > h then 0
  else (315 / (64 * π * h ^ 9)) * (h ^ 2 - r_norm ^ 2) ^ 3

/-- Source `SPHKernel.spiky_gradient`: returns the zero vector when `|r| > h` or
`|r| < 10⁻⁶`, otherwise `−45/(π h⁶) · (h − |r|)² · r/|r|`. -/
noncomputable def spiky_gradient (r : Vec3 ℝ) (h : ℝ) : Vec3 ℝ :=
  let r_norm := norm3 r
  if r_norm > h ∨ r_norm < 1e-6 then 0
  else ((-45 / (π * h ^ 6)) * (h - r_norm) ^ 2 / r_norm) • r

/-- Source `SPHKernel.viscosity_laplacian`: returns `0` when `|r| > h`, otherwise
`45/(π h⁶) · (h − |r|)`. -/
noncomputable def viscosity_laplacian (r : Vec3 ℝ) (h : ℝ) : ℝ :=
  let r_norm := norm3 r
  if r_norm > h then 0
  else (45 / (π * h ^ 6)) * (h - r_norm)

/-! ## Spatial hash grid (`src/core/spatial_hash.py`, class `SpatialHashGrid`)

The `defaultdict(list)` mapping cells to bucket lists is modelled as a total
function from cells to lists; a cell absent from the dict is exactly a cell
whose bucket is `[]`.  (`get_neighbors` skips absent cells with an
`in self.grid` test, which contributes nothing either way.) -/

/-- Integer grid-cell coordinates. -/
abbrev Cell := ℤ × ℤ × ℤ

/-- Source `SpatialHashGrid.hash_position`: `(⌊x/s⌋, ⌊y/s⌋, ⌊z/s⌋)`. -/
noncomputable def hash_position (cell_size : ℝ) (position : Vec3 ℝ) : Cell :=
  (⌊position 0 / cell_size⌋, ⌊position 1 / cell_size⌋, ⌊position 2 / cell_size⌋)

/-- Source `SpatialHashGrid.build`: clears the map, then inserts each index `i` into
the bucket of the cell of `positions[i]`, in index order.  The resulting
bucket of cell `c` is the increasing list of live indices hashing to `c`. -/
noncomputable def build (cell_size : ℝ) (positions : List (Vec3 ℝ)) : Cell → List ℕ :=
  fun c => (List.range positions.length).filter
    (fun i => hash_position cell_size (positions.getD i 0) = c)

/-- The 27 cell offsets `di, dj, dk ∈ {-1, 0, 1}`, in the loop order of the
source. -/
def offsets : List ℤ := [-1, 0, 1]

/-- Source `SpatialHashGrid.get_neighbors`: concatenates the buckets of the 27 cells
of the 3×3×3 neighborhood centered on the cell of `position`.  The `radius`
argument is accepted and ignored, as in the source. -/
noncomputable def get_neighbors (cell_size : ℝ) (grid : Cell → List ℕ)
    (position : Vec3 ℝ) (radius : ℝ) : List ℕ :=
  let cell := hash_position cell_size position
  ((offsets.flatMap fun di => offsets.flatMap fun dj => offsets.map fun dk =>
      (cell.1 + di, cell.2.1 + dj, cell.2.2 + dk))).flatMap grid

lemma mem_build_iff (cell_size : ℝ) (positions : List (Vec3 ℝ)) (c : Cell) (i : ℕ) :
    i ∈ build cell_size positions c ↔
      i < positions.length ∧ hash_position cell_size (positions.getD i 0) = c := by
  simp [build, List.mem_filter, List.mem_range]

lemma mem_get_neighbors_lt (cell_size radius : ℝ) (positions : List (Vec3 ℝ))
    (q : Vec3 ℝ) (j : ℕ)
    (hj : j ∈ get_neighbors cell_size (build cell_size positions) q radius) :
    j < positions.length := by
  simp only [get_neighbors, List.mem_flatMap] at hj
  obtain ⟨c, _, hc⟩ := hj
  exact ((mem_build_iff _ _ _ _).1 hc).1

/-! ## Particle store (`src/core/particle.py`, class `ParticleSystem`)

Each numpy field array of capacity `max_particles` is a total function from
indices; the first `n_particles` slots are live.  `add_particle` raises
`RuntimeError` when the store is full; the error branch of the translation
carries the store as it stands at the raise, which is the untouched store
(the check precedes every write). -/

structure ParticleSystem where
  max_particles : ℕ
  n_particles : ℕ
  positions : ℕ → Vec3 ℝ
  velocities : ℕ → Vec3 ℝ
  forces : ℕ → Vec3 ℝ
  masses : ℕ → ℝ
  densities : ℕ → ℝ
  pressures : ℕ → ℝ
  colors : ℕ → Vec3 ℝ
  viscosities : ℕ → ℝ

/-- Source `ParticleSystem.__init__`: empty store of the given capacity; all field
arrays zeroed except `viscosities`, initialised to `0.001` everywhere. -/
def ParticleSystem.init (max_particles : ℕ) : ParticleSystem where
  max_particles := max_particles
  n_particles := 0
  positions := fun _ => 0
  velocities := fun _ => 0
  forces := fun _ => 0
  masses := fun _ => 0
  densities := fun _ => 0
  pressures := fun _ => 0
  colors := fun _ => 0
  viscosities := fun _ => 0.001

/-- Source `ParticleSystem.add_particle`: if the store is full, raise (error value =
the untouched store); otherwise write the new particle at index
`n_particles`, zero its density, pressure and force, increment the count and
return the index. -/
def ParticleSystem.add_particle (ps : ParticleSystem) (position velocity : Vec3 ℝ)
    (mass : ℝ) (color : Vec3 ℝ) (viscosity : ℝ) :
    Except ParticleSystem (ParticleSystem × ℕ) :=
  if ps.n_particles ≥ ps.max_particles then .error ps
  else
    let idx := ps.n_particles
    .ok ({ ps with
      positions := Function.update ps.positions idx position
      velocities := Function.update ps.velocities idx velocity
      masses := Function.update ps.masses idx mass
      colors := Function.update ps.colors idx color
      viscosities := Function.update ps.viscosities idx viscosity
      densities := Function.update ps.densities idx 0
      pressures := Function.update ps.pressures idx 0
      forces := Function.update ps.forces idx 0
      n_particles := idx + 1 }, idx)

/-! ## Solver (`src/core/sph_solver.py`, class `SPHSolver`) -/

structure SPHSolver where
  domain_size : Vec3 ℝ
  h : ℝ
  particle_mass : ℝ
  rest_density : ℝ
  gas_constant : ℝ
  viscosity : ℝ
  gravity : Vec3 ℝ
  dt : ℝ
  particles : ParticleSystem
  n_active : ℕ
  /-- The `SpatialHashGrid` object owned by the solver (its `cell_size` is the
  solver's `h`, fixed at construction); rebuilt by `compute_density_pressure`
  and read, stale, by `compute_forces`. -/
  spatial_grid : Cell → List ℕ
  time : ℝ
  step_count : ℕ

/-- Source `SPHSolver.__init__`: stores every construction parameter as given — the
source performs no validation of any of them — and creates an empty particle
store and an empty grid. -/
def SPHSolver.init (domain_size : Vec3 ℝ)
    (smoothing_length particle_mass rest_density gas_constant viscosity : ℝ)
    (gravity : Vec3 ℝ) (time_step : ℝ) (max_particles : ℕ) : SPHSolver where
  domain_size := domain_size
  h := smoothing_length
  particle_mass := particle_mass
  rest_density := rest_density
  gas_constant := gas_constant
  viscosity := viscosity
  gravity := gravity
  dt := time_step
  particles := ParticleSystem.init max_particles
  n_active := 0
  spatial_grid := fun _ => []
  time := 0
  step_count := 0

/-- The slice `self.particles.positions[:self.n_active]`: the live position slice. -/
def SPHSolver.livePositions (s : SPHSolver) : List (Vec3 ℝ) :=
  (List.range s.n_active).map s.particles.positions

/-- The density accumulated for particle `i` in `compute_density_pressure`:
`Σ_{j ∈ neighbors} m_j · W_poly6(pos_i − pos_j, h)`, clamped from below by
`rest_density · 0.01`. -/
noncomputable def SPHSolver.densityAt (s : SPHSolver) (i : ℕ) : ℝ :=
  let grid := build s.h s.livePositions
  let pos_i := s.particles.positions i
  let neighbors := get_neighbors s.h grid pos_i s.h
  let density := (neighbors.map (fun j =>
    s.particles.masses j * poly6 (pos_i - s.particles.positions j) s.h)).sum
  max density (s.rest_density * 0.01)

/-- Source `SPHSolver.compute_density_pressure`: rebuilds the spatial grid from the
live positions, then for each live `i` stores the clamped density and the
pressure `k · (ρ_i − ρ₀)` computed from the clamped density. -/
noncomputable def SPHSolver.compute_density_pressure (s : SPHSolver) : SPHSolver :=
  { s with
    spatial_grid := build s.h s.livePositions
    particles := { s.particles with
      densities := fun i =>
        if i < s.n_active then s.densityAt i else s.particles.densities i
      pressures := fun i =>
        if i < s.n_active then s.gas_constant * (s.densityAt i - s.rest_density)
        else s.particles.pressures i } }

/-- The total force on particle `i` in `compute_forces`: pressure and
viscosity sums over the candidate neighbors from the (stale) stored grid,
skipping `j = i` (`continue`) and guarding each of the two terms by
`densities[j] > 0`, plus gravity `m_i · g`. -/
noncomputable def SPHSolver.forceAt (s : SPHSolver) (i : ℕ) : Vec3 ℝ :=
  let pos_i := s.particles.positions i
  let vel_i := s.particles.velocities i
  let neighbors := get_neighbors s.h s.spatial_grid pos_i s.h
  let f_pressure := (neighbors.map (fun j =>
    if j = i then 0 else
      let r := pos_i - s.particles.positions j
      let grad_W := spiky_gradient r s.h
      if s.particles.densities j > 0 then
        ((-(s.particles.masses j)) *
          ((s.particles.pressures i + s.particles.pressures j) / 2) /
          s.particles.densities j) • grad_W
      else 0)).sum
  let f_viscosity := (neighbors.map (fun j =>
    if j = i then 0 else
      let r := pos_i - s.particles.positions j
      let lap_W := viscosity_laplacian r s.h
      if s.particles.densities j > 0 then
        (s.particles.viscosities i * s.particles.masses j /
          s.particles.densities j * lap_W) • (s.particles.velocities j - vel_i)
      else 0)).sum
  f_pressure + f_viscosity + s.particles.masses i • s.gravity

/-- Source `SPHSolver.compute_forces`: resets and recomputes `forces[i]` for every
live `i`; slots past the live count keep their old values. -/
noncomputable def SPHSolver.compute_forces (s : SPHSolver) : SPHSolver :=
  { s with
    particles := { s.particles with
      forces := fun i =>
        if i < s.n_active then s.forceAt i else s.particles.forces i } }

/-- The wall-bounce rule of `apply_boundary_conditions` on one axis with
extent `L`: positions past a wall are teleported to an `ε = 0.001` offset and
the velocity component is forced away from the wall at half magnitude
(`damping = 0.5`). -/
noncomputable def clampAxis (L p v : ℝ) : ℝ × ℝ :=
  if p < 0 then (0.001, |v| * 0.5)
  else if p > L then (L - 0.001, -|v| * 0.5)
  else (p, v)

/-- Source `SPHSolver.apply_boundary_conditions` for one particle: the axis rule
applied independently on each of the three axes. -/
noncomputable def apply_boundary (L p v : Vec3 ℝ) : Vec3 ℝ × Vec3 ℝ :=
  (fun a => (clampAxis (L a) (p a) (v a)).1, fun a => (clampAxis (L a) (p a) (v a)).2)

/-- One particle's pass through `SPHSolver.integrate`: acceleration
`force/mass` (zero for non-positive mass), semi-implicit velocity then
position update, then the boundary bounce.  Returns (position, velocity). -/
noncomputable def integrateParticle (L : Vec3 ℝ) (dt : ℝ) (p v f : Vec3 ℝ) (m : ℝ) :
    Vec3 ℝ × Vec3 ℝ :=
  let acceleration := if m > 0 then m⁻¹ • f else 0
  let v' := v + dt • acceleration
  let p' := p + dt • v'
  apply_boundary L p' v'

/-- Source `SPHSolver.integrate`: each live particle is updated from its own state
only, so the sequential source loop is a per-index map. -/
noncomputable def SPHSolver.integrate (s : SPHSolver) : SPHSolver :=
  let upd := fun i => integrateParticle s.domain_size s.dt
    (s.particles.positions i) (s.particles.velocities i)
    (s.particles.forces i) (s.particles.masses i)
  { s with
    particles := { s.particles with
      positions := fun i =>
        if i < s.n_active then (upd i).1 else s.particles.positions i
      velocities := fun i =>
        if i < s.n_active then (upd i).2 else s.particles.velocities i } }

/-- Source `SPHSolver.step`: a no-op when no particle is live, otherwise the
density → forces → integrate pipeline followed by the clock updates. -/
noncomputable def SPHSolver.step (s : SPHSolver) : SPHSolver :=
  if s.n_active = 0 then s
  else
    let s3 := s.compute_density_pressure.compute_forces.integrate
    { s3 with time := s3.time + s3.dt, step_count := s3.step_count + 1 }

/-! ## Fluid-box insertion (`SPHSolver.add_fluid_box`) -/

/-- Python `int()` on a float: truncation toward zero. -/
noncomputable def int_trunc (x : ℝ) : ℤ := if x < 0 then -⌊-x⌋ else ⌊x⌋

/-- Rounding a real mantissa to the nearest integer, ties to even — the
IEEE-754 round-to-nearest-even tie rule. -/
noncomputable def roundTiesEven (m : ℝ) : ℤ :=
  if m - ⌊m⌋ < 1 / 2 then ⌊m⌋
  else if 1 / 2 < m - ⌊m⌋ then ⌊m⌋ + 1
  else if 2 ∣ ⌊m⌋ then ⌊m⌋ else ⌊m⌋ + 1

/-- The IEEE-754 binary64 value nearest a real `x` (round to nearest, ties to
even): the mantissa `x / 2^e` with `2^52 ≤ |x| / 2^e < 2^53` is rounded to an
integer.  Overflow and subnormals, never reached by the values analysed
here, are not modelled.  This models one double-precision arithmetic
operation: the exact real result of the operation, rounded. -/
noncomputable def fp64 (x : ℝ) : ℝ :=
  if x = 0 then 0
  else
    ((roundTiesEven (x / 2 ^ (Int.log 2 |x| - 52)) : ℤ) : ℝ) *
      2 ^ (Int.log 2 |x| - 52)

/-- The lattice spacing of `add_fluid_box`, one double operation at a time:
`volume = size[0] * size[1] * size[2]` is two rounded multiplications,
`volume / n_particles` a rounded division; the Python expression `(1/3)` is
the binary64 nearest one third; and `**` is the correctly rounded real
power.  (For the input exercised by the C7 claim, the true power lies 0.59
and 0.41 ulp away from the two rounding boundaries, so every faithful libm
`pow` — and the one this repository actually runs under, as its printed
value `0.10000000000000002` shows — agrees with the correctly rounded
model.) -/
noncomputable def box_spacing (size : Vec3 ℝ) (n_particles : ℕ) : ℝ :=
  fp64 (fp64 (fp64 (fp64 (size 0 * size 1) * size 2) / n_particles)
    ^ fp64 (1 / 3))

/-- The lattice dimensions of `add_fluid_box`:
`n_a = max(1, int(s_a / Δ))`, where the division is a rounded double
operation and `int()` truncates. -/
noncomputable def box_dims (size : Vec3 ℝ) (n_particles : ℕ) : ℕ × ℕ × ℕ :=
  let spacing := box_spacing size n_particles
  ((max 1 (int_trunc (fp64 (size 0 / spacing)))).toNat,
   (max 1 (int_trunc (fp64 (size 1 / spacing)))).toNat,
   (max 1 (int_trunc (fp64 (size 2 / spacing)))).toNat)

/-- The binary64 value of the source literal `0.4`. -/
noncomputable def double04 : ℝ := 3602879701896397 / 2 ^ 53

/-- The lattice points `(i, j, k)` in the lexicographic order of the triple
loop of `add_fluid_box`. -/
def latticePoints (nx ny nz : ℕ) : List (ℕ × ℕ × ℕ) :=
  (List.range nx).flatMap fun i => (List.range ny).flatMap fun j =>
    (List.range nz).map fun k => (i, j, k)

/-- Numpy `np.clip(pos, 0, domain)`, componentwise. -/
noncomputable def clipVec (p lo hi : Vec3 ℝ) : Vec3 ℝ :=
  fun a => min (max (p a) (lo a)) (hi a)

/-- The triple loop of `add_fluid_box` over the lattice points.  A `break`
in the source exits only the innermost loop, but since the loop bodies do
nothing but re-check `count >= n_particles` and break again, the net effect
is that insertion stops entirely; this is modelled by the `count` test at
the head of each iteration.  A `RuntimeError` raised by `add_particle`
propagates to the caller with the particles added so far kept, so the
result carries the state at the raise together with an aborted flag.
`jitter (i,j,k)` is the triple sampled by `np.random.uniform(-0.1, 0.1, 3)`
for that lattice point, an input of the model. -/
noncomputable def box_insert_loop (origin : Vec3 ℝ) (spacing : ℝ) (n_particles : ℕ)
    (color : Vec3 ℝ) (visc : ℝ) (jitter : ℕ × ℕ × ℕ → Vec3 ℝ) :
    List (ℕ × ℕ × ℕ) → SPHSolver → ℕ → SPHSolver × ℕ × Bool
  | [], t, count => (t, count, false)
  | pt :: rest, t, count =>
    if n_particles ≤ count then (t, count, false)
    else
      let offset := spacing • jitter pt
      let pos := clipVec
        (origin + (fun a => (![(pt.1 : ℝ), (pt.2.1 : ℝ), (pt.2.2 : ℝ)] a) * spacing) + offset)
        0 t.domain_size
      match t.particles.add_particle pos 0 t.particle_mass color visc with
      | .error _ => (t, count, true)
      | .ok (ps', _) =>
        box_insert_loop origin spacing n_particles color visc jitter rest
          { t with particles := ps', n_active := t.n_active + 1 } (count + 1)

/-- Source `SPHSolver.add_fluid_box`: computes the spacing and lattice dimensions,
then inserts up to `n_particles` jittered, clipped lattice particles with
zero velocity and the solver's default particle mass.  `color` and `visc`
are the values of `fluid_properties.get('color', …)` and
`fluid_properties.get('viscosity', …)`.  Returns the updated solver, the
number of particles placed and whether a capacity error was raised. -/
noncomputable def SPHSolver.add_fluid_box (s : SPHSolver) (position size : Vec3 ℝ)
    (n_particles : ℕ) (color : Vec3 ℝ) (visc : ℝ)
    (jitter : ℕ × ℕ × ℕ → Vec3 ℝ) : SPHSolver × ℕ × Bool :=
  let spacing := box_spacing size n_particles
  let d := box_dims size n_particles
  box_insert_loop position spacing n_particles color visc jitter
    (latticePoints d.1 d.2.1 d.2.2) s 0

/-! ## Supporting lemmas -/

/-- A point lies in the axis-aligned domain box `[0, L₀] × [0, L₁] × [0, L₂]`. -/
def inBox (L p : Vec3 ℝ) : Prop := ∀ a : Fin 3, 0 ≤ p a ∧ p a ≤ L a

lemma clampAxis_fst_mem (L p v : ℝ) (hL : 0.001 ≤ L) :
    0 ≤ (clampAxis L p v).1 ∧ (clampAxis L p v).1 ≤ L := by
  unfold clampAxis
  split_ifs with h1 h2
  · exact ⟨by norm_num, hL⟩
  · constructor <;> [linarith; linarith]
  · exact ⟨not_lt.1 h1, not_lt.1 h2⟩

lemma clampAxis_noop (L p v : ℝ) (h0 : 0 ≤ p) (hp : p ≤ L) :
    clampAxis L p v = (p, v) := by
  unfold clampAxis
  rw [if_neg (not_lt.2 h0), if_neg (not_lt.2 hp)]

lemma step_n_active (s : SPHSolver) : s.step.n_active = s.n_active := by
  unfold SPHSolver.step
  split <;> rfl

lemma step_domain_size (s : SPHSolver) : s.step.domain_size = s.domain_size := by
  unfold SPHSolver.step
  split <;> rfl

lemma step_positions_of_ne (s : SPHSolver) (hn : s.n_active ≠ 0) (i : ℕ)
    (hi : i < s.n_active) :
    s.step.particles.positions i =
      (integrateParticle s.domain_size s.dt
        (s.particles.positions i)
        (s.particles.velocities i)
        (s.compute_density_pressure.compute_forces.particles.forces i)
        (s.particles.masses i)).1 := by
  unfold SPHSolver.step
  rw [if_neg hn]
  simp only [SPHSolver.integrate, SPHSolver.compute_forces,
    SPHSolver.compute_density_pressure]
  rw [if_pos hi]

lemma step_velocities_of_ne (s : SPHSolver) (hn : s.n_active ≠ 0) (i : ℕ)
    (hi : i < s.n_active) :
    s.step.particles.velocities i =
      (integrateParticle s.domain_size s.dt
        (s.particles.positions i)
        (s.particles.velocities i)
        (s.compute_density_pressure.compute_forces.particles.forces i)
        (s.particles.masses i)).2 := by
  unfold SPHSolver.step
  rw [if_neg hn]
  simp only [SPHSolver.integrate, SPHSolver.compute_forces,
    SPHSolver.compute_density_pressure]
  rw [if_pos hi]

lemma integrateParticle_fst_mem (L : Vec3 ℝ) (dt : ℝ) (p v f : Vec3 ℝ) (m : ℝ)
    (hL : ∀ a, (0.001 : ℝ) ≤ L a) :
    inBox L (integrateParticle L dt p v f m).1 := by
  intro a
  exact clampAxis_fst_mem _ _ _ (hL a)

/-- One `step` puts every live particle's position inside the box, provided
each domain extent is at least the wall offset `ε = 0.001`; no assumption on
the pre-step positions is needed once a particle is live. -/
lemma step_inBox (s : SPHSolver) (hL : ∀ a, (0.001 : ℝ) ≤ s.domain_size a)
    (h0 : ∀ i < s.n_active, inBox s.domain_size (s.particles.positions i))
    (i : ℕ) (hi : i < s.n_active) :
    inBox s.domain_size (s.step.particles.positions i) := by
  by_cases hn : s.n_active = 0
  · unfold SPHSolver.step
    rw [if_pos hn]
    exact h0 i hi
  · rw [step_positions_of_ne s hn i hi]
    exact integrateParticle_fst_mem _ _ _ _ _ _ hL

lemma livePositions_length (s : SPHSolver) : s.livePositions.length = s.n_active := by
  simp [SPHSolver.livePositions]

lemma livePositions_getD (s : SPHSolver) (i : ℕ) (hi : i < s.n_active) :
    s.livePositions.getD i 0 = s.particles.positions i := by
  rw [List.getD_eq_getElem?_getD]
  simp [SPHSolver.livePositions, hi]

/-- With a single live particle and zero gravity, the force pass yields a
zero force: the only candidate neighbor of particle `0` is itself, skipped by
the `i == j` test, and the gravity term vanishes. -/
lemma pipeline_force_single (s : SPHSolver) (h1 : s.n_active = 1) (hg : s.gravity = 0) :
    s.compute_density_pressure.compute_forces.particles.forces 0 = 0 := by
  have hn1 : s.compute_density_pressure.n_active = s.n_active := rfl
  simp only [SPHSolver.compute_forces, hn1, h1]
  rw [if_pos Nat.zero_lt_one]
  unfold SPHSolver.forceAt
  have hmem : ∀ j ∈ get_neighbors s.compute_density_pressure.h
      s.compute_density_pressure.spatial_grid
      (s.compute_density_pressure.particles.positions 0)
      s.compute_density_pressure.h, j = 0 := by
    intro j hj
    have hgrid : s.compute_density_pressure.spatial_grid = build s.h s.livePositions := rfl
    rw [hgrid] at hj
    have := mem_get_neighbors_lt _ _ _ _ _ hj
    rw [livePositions_length, h1] at this
    omega
  have hgrav : s.compute_density_pressure.gravity = 0 := hg
  simp only [hgrav, smul_zero, add_zero]
  rw [List.sum_eq_zero, List.sum_eq_zero, add_zero]
  · intro x hx
    obtain ⟨j, hj, hxe⟩ := List.mem_map.1 hx
    rw [hmem j hj] at hxe
    simp at hxe
    exact hxe.symm
  · intro x hx
    obtain ⟨j, hj, hxe⟩ := List.mem_map.1 hx
    rw [hmem j hj] at hxe
    simp at hxe
    exact hxe.symm

/-- With a single live particle and zero gravity, one `step` leaves the
velocity alone and moves the position by `Δt · v` before the wall bounce. -/
lemma step_single (s : SPHSolver) (h1 : s.n_active = 1) (hg : s.gravity = 0) :
    s.step.particles.positions 0 =
      (apply_boundary s.domain_size
        (s.particles.positions 0 + s.dt • s.particles.velocities 0)
        (s.particles.velocities 0)).1 ∧
    s.step.particles.velocities 0 =
      (apply_boundary s.domain_size
        (s.particles.positions 0 + s.dt • s.particles.velocities 0)
        (s.particles.velocities 0)).2 := by
  have hn : s.n_active ≠ 0 := by omega
  have hi : 0 < s.n_active := by omega
  have hf := pipeline_force_single s h1 hg
  rw [step_positions_of_ne s hn 0 hi, step_velocities_of_ne s hn 0 hi, hf]
  unfold integrateParticle
  have hacc : (if s.particles.masses 0 > 0
      then (s.particles.masses 0)⁻¹ • (0 : Vec3 ℝ) else 0) = 0 := by
    split <;> simp
  rw [hacc]
  simp only [smul_zero, add_zero]
  exact ⟨trivial, trivial⟩

/-- A solver holding exactly one live particle, used to instantiate the
scenario claims; the remaining parameters are the source's defaults. -/
noncomputable def oneParticleSolver (L : Vec3 ℝ) (h dt : ℝ) (g p v : Vec3 ℝ)
    (m : ℝ) : SPHSolver where
  domain_size := L
  h := h
  particle_mass := m
  rest_density := 1000
  gas_constant := 2000
  viscosity := 0.001
  gravity := g
  dt := dt
  particles :=
    { max_particles := 100
      n_particles := 1
      positions := fun _ => p
      velocities := fun _ => v
      forces := fun _ => 0
      masses := fun _ => m
      densities := fun _ => 0
      pressures := fun _ => 0
      colors := fun _ => 0
      viscosities := fun _ => 0.001 }
  n_active := 1
  spatial_grid := fun _ => []
  time := 0
  step_count := 0

/-! ## Claims -/

/-- C2 (counterexample): constructing a solver with the non-positive
smoothing length `h = −1` does not fail — `__init__` performs no validation
and returns a solver with `h = −1` stored. -/
theorem C2_counterexample :
    (SPHSolver.init ![2, 2, 2] (-1) 0.02 1000 2000 0.001 ![0, -9.81, 0]
      0.001 100000).h = -1 := rfl

/-- C2 (amended): solver construction performs no parameter validation at
all: every combination of smoothing length, timestep, particle mass, and
domain extents — non-positive ones included — is accepted, and construction
always produces a solver storing those values verbatim, with an empty
particle store; no `InvalidParameter` rejection exists. -/
theorem C2_no_validation (domain_size : Vec3 ℝ)
    (smoothing_length particle_mass rest_density gas_constant viscosity : ℝ)
    (gravity : Vec3 ℝ) (time_step : ℝ) (max_particles : ℕ) :
    (SPHSolver.init domain_size smoothing_length particle_mass rest_density
        gas_constant viscosity gravity time_step max_particles).h = smoothing_length ∧
    (SPHSolver.init domain_size smoothing_length particle_mass rest_density
        gas_constant viscosity gravity time_step max_particles).dt = time_step ∧
    (SPHSolver.init domain_size smoothing_length particle_mass rest_density
        gas_constant viscosity gravity time_step max_particles).particle_mass
      = particle_mass ∧
    (SPHSolver.init domain_size smoothing_length particle_mass rest_density
        gas_constant viscosity gravity time_step max_particles).domain_size
      = domain_size ∧
    (SPHSolver.init domain_size smoothing_length particle_mass rest_density
        gas_constant viscosity gravity time_step max_particles).n_active = 0 :=
  ⟨rfl, rfl, rfl, rfl, rfl⟩

/-- C5: immediately after `compute_density_pressure`, every live particle's
density is at least `0.01 · ρ₀` — the source clamps the accumulated density
with `max(density, rest_density * 0.01)` before storing it. -/
theorem C5_density_floor (s : SPHSolver) (i : ℕ) (hi : i < s.n_active) :
    0.01 * s.rest_density ≤ s.compute_density_pressure.particles.densities i := by
  simp only [SPHSolver.compute_density_pressure]
  rw [if_pos hi, mul_comm]
  unfold SPHSolver.densityAt
  simp only []
  exact le_max_right _ _

/-- C5 witness at a concrete one-particle solver. -/
theorem C5_witness :
    0 < (oneParticleSolver ![1, 1, 1] 0.05 0.001 0 ![0.5, 0.5, 0.5] 0 1).n_active ∧
    0.01 * (oneParticleSolver ![1, 1, 1] 0.05 0.001 0 ![0.5, 0.5, 0.5] 0 1).rest_density ≤
      (oneParticleSolver ![1, 1, 1] 0.05 0.001 0 ![0.5, 0.5, 0.5] 0
        1).compute_density_pressure.particles.densities 0 :=
  ⟨Nat.zero_lt_one, C5_density_floor _ 0 Nat.zero_lt_one⟩

/-- C8: all three kernels have compact support — for any `h > 0` and any
displacement with `|r| > h`, the Poly6 value, the Spiky gradient, and the
Viscosity Laplacian are exactly zero. -/
theorem C8_kernel_compact_support (h : ℝ) (r : Vec3 ℝ) (hh : 0 < h)
    (hr : h < norm3 r) :
    poly6 r h = 0 ∧ spiky_gradient r h = 0 ∧ viscosity_laplacian r h = 0 := by
  refine ⟨?_, ?_, ?_⟩
  · unfold poly6
    simp only []
    rw [if_pos hr]
  · unfold spiky_gradient
    simp only []
    rw [if_pos (Or.inl hr)]
  · unfold viscosity_laplacian
    simp only []
    rw [if_pos hr]

/-- C8 witness at `h = 1`, `r = (2, 0, 0)` (so `|r| = 2 > 1`). -/
theorem C8_witness :
    0 < (1 : ℝ) ∧ (1 : ℝ) < norm3 ![2, 0, 0] ∧
    (poly6 ![2, 0, 0] 1 = 0 ∧ spiky_gradient ![2, 0, 0] 1 = 0 ∧
      viscosity_laplacian ![2, 0, 0] 1 = 0) := by
  have h2 : norm3 ![(2 : ℝ), 0, 0] = 2 := by
    unfold norm3 normSq
    norm_num
    rw [show (4 : ℝ) = 2 ^ 2 by norm_num, Real.sqrt_sq (by norm_num : (0:ℝ) ≤ 2)]
  refine ⟨one_pos, by rw [h2]; norm_num,
    C8_kernel_compact_support 1 _ one_pos (by rw [h2]; norm_num)⟩

/-- C9: below capacity, `add_particle` writes the new particle at index `N`
with density, pressure, and force zeroed, bumps the live count, and returns
`N`; at capacity it raises before touching any field array, so the store is
returned unchanged with the error. -/
theorem C9_append_contract (ps : ParticleSystem) (p v : Vec3 ℝ) (m : ℝ)
    (c : Vec3 ℝ) (visc : ℝ) :
    (ps.n_particles < ps.max_particles →
      ps.add_particle p v m c visc = .ok ({ ps with
        positions := Function.update ps.positions ps.n_particles p
        velocities := Function.update ps.velocities ps.n_particles v
        masses := Function.update ps.masses ps.n_particles m
        colors := Function.update ps.colors ps.n_particles c
        viscosities := Function.update ps.viscosities ps.n_particles visc
        densities := Function.update ps.densities ps.n_particles 0
        pressures := Function.update ps.pressures ps.n_particles 0
        forces := Function.update ps.forces ps.n_particles 0
        n_particles := ps.n_particles + 1 }, ps.n_particles)) ∧
    (ps.n_particles = ps.max_particles →
      ps.add_particle p v m c visc = .error ps) := by
  constructor
  · intro hlt
    unfold ParticleSystem.add_particle
    rw [if_neg (not_le.2 hlt)]
  · intro heq
    unfold ParticleSystem.add_particle
    rw [if_pos (le_of_eq heq.symm)]

/-- C9 witness: a successful append into a store of capacity 2, and a
rejected append into a store of capacity 0 (live count = capacity). -/
theorem C9_witness :
    ((ParticleSystem.init 2).n_particles < (ParticleSystem.init 2).max_particles ∧
      (ParticleSystem.init 2).add_particle 0 0 1 0 0.001 =
        .ok ({ ParticleSystem.init 2 with
          positions := Function.update (ParticleSystem.init 2).positions 0 0
          velocities := Function.update (ParticleSystem.init 2).velocities 0 0
          masses := Function.update (ParticleSystem.init 2).masses 0 1
          colors := Function.update (ParticleSystem.init 2).colors 0 0
          viscosities := Function.update (ParticleSystem.init 2).viscosities 0 0.001
          densities := Function.update (ParticleSystem.init 2).densities 0 0
          pressures := Function.update (ParticleSystem.init 2).pressures 0 0
          forces := Function.update (ParticleSystem.init 2).forces 0 0
          n_particles := 1 }, 0)) ∧
    (ParticleSystem.init 0).add_particle 0 0 1 0 0.001 = .error (ParticleSystem.init 0) :=
  ⟨⟨Nat.zero_lt_two, (C9_append_contract _ _ _ _ _ _).1 Nat.zero_lt_two⟩,
   (C9_append_contract _ _ _ _ _ _).2 rfl⟩

/-- C6: for a live particle of positive mass whose updated position triggers
no wall clamp, one `integrate` pass performs the semi-implicit Euler update:
the velocity gains `(force/mass)·Δt` first, and the position then advances by
the just-updated velocity times `Δt`. -/
theorem C6_semi_implicit_euler (s : SPHSolver) (i : ℕ) (hi : i < s.n_active)
    (hm : 0 < s.particles.masses i)
    (hnc : ∀ a : Fin 3,
      0 ≤ (s.particles.positions i + s.dt • (s.particles.velocities i +
            s.dt • ((s.particles.masses i)⁻¹ • s.particles.forces i))) a ∧
      (s.particles.positions i + s.dt • (s.particles.velocities i +
            s.dt • ((s.particles.masses i)⁻¹ • s.particles.forces i))) a
        ≤ s.domain_size a) :
    s.integrate.particles.velocities i =
      s.particles.velocities i +
        s.dt • ((s.particles.masses i)⁻¹ • s.particles.forces i) ∧
    s.integrate.particles.positions i =
      s.particles.positions i + s.dt • s.integrate.particles.velocities i := by
  have hkey : integrateParticle s.domain_size s.dt (s.particles.positions i)
      (s.particles.velocities i) (s.particles.forces i) (s.particles.masses i)
      = (s.particles.positions i + s.dt • (s.particles.velocities i +
            s.dt • ((s.particles.masses i)⁻¹ • s.particles.forces i)),
         s.particles.velocities i +
            s.dt • ((s.particles.masses i)⁻¹ • s.particles.forces i)) := by
    unfold integrateParticle
    rw [if_pos hm]
    unfold apply_boundary
    simp only []
    refine Prod.ext ?_ ?_ <;> funext a <;> simp only [] <;>
      rw [clampAxis_noop _ _ _ (hnc a).1 (hnc a).2]
  have hv : s.integrate.particles.velocities i =
      s.particles.velocities i +
        s.dt • ((s.particles.masses i)⁻¹ • s.particles.forces i) := by
    simp only [SPHSolver.integrate]
    rw [if_pos hi, hkey]
  have hp : s.integrate.particles.positions i =
      s.particles.positions i + s.dt • (s.particles.velocities i +
        s.dt • ((s.particles.masses i)⁻¹ • s.particles.forces i)) := by
    simp only [SPHSolver.integrate]
    rw [if_pos hi, hkey]
  exact ⟨hv, by rw [hp, hv]⟩

/-- A concrete solver for the C6 witness: one particle of mass 1 resting at
the center of the unit box, zero force, `Δt = 0.1`. -/
noncomputable def sampleIntegrateSolver : SPHSolver :=
  oneParticleSolver ![1, 1, 1] 0.05 0.1 0 ![0.5, 0.5, 0.5] 0 1

/-- C6 witness at `sampleIntegrateSolver`. -/
theorem C6_witness :
    0 < sampleIntegrateSolver.particles.masses 0 ∧
    (sampleIntegrateSolver.integrate.particles.velocities 0 =
      sampleIntegrateSolver.particles.velocities 0 +
        sampleIntegrateSolver.dt • ((sampleIntegrateSolver.particles.masses 0)⁻¹ •
          sampleIntegrateSolver.particles.forces 0) ∧
    sampleIntegrateSolver.integrate.particles.positions 0 =
      sampleIntegrateSolver.particles.positions 0 +
        sampleIntegrateSolver.dt •
          sampleIntegrateSolver.integrate.particles.velocities 0) := by
  refine ⟨one_pos,
    C6_semi_implicit_euler sampleIntegrateSolver 0 Nat.zero_lt_one one_pos ?_⟩
  intro a
  fin_cases a <;>
    norm_num [sampleIntegrateSolver, oneParticleSolver]

/-- The C1 scenario solver: domain `(1,1,1)`, `g = 0`, `Δt = 0.01`, a tiny
smoothing length, one particle at `(0.5, 0.01, 0.5)` with velocity
`(0, −1, 0)`. -/
noncomputable def C1solver : SPHSolver :=
  oneParticleSolver ![1, 1, 1] 0.001 0.01 0 ![0.5, 0.01, 0.5] ![0, -1, 0] 0.02

/-- C1 (counterexample): in the claimed scenario the particle lands exactly
on the wall: the new y-position is `0.01 − 1·0.01 = 0`, which does not
satisfy the strict `< 0` test of `apply_boundary_conditions`, so no bounce
happens — after one `step` the y-position is `0` (not `10⁻³`) and the
y-velocity is `−1` (not `+0.5`). -/
theorem C1_counterexample :
    C1solver.step.particles.positions 0 1 = 0 ∧
    C1solver.step.particles.velocities 0 1 = -1 ∧
    ¬ (C1solver.step.particles.positions 0 1 = 0.001 ∧
       C1solver.step.particles.velocities 0 1 = 0.5) := by
  obtain ⟨hp, hv⟩ := step_single C1solver rfl rfl
  have hP : (C1solver.particles.positions 0 +
      C1solver.dt • C1solver.particles.velocities 0) 1 = 0 := by
    norm_num [C1solver, oneParticleSolver]
  have hV : C1solver.particles.velocities 0 1 = -1 := by
    norm_num [C1solver, oneParticleSolver]
  have hL : C1solver.domain_size 1 = 1 := by
    norm_num [C1solver, oneParticleSolver]
  have h1 : C1solver.step.particles.positions 0 1 = 0 := by
    rw [hp]
    unfold apply_boundary
    simp only []
    rw [hP, hV, hL]
    norm_num [clampAxis]
  have h2 : C1solver.step.particles.velocities 0 1 = -1 := by
    rw [hv]
    unfold apply_boundary
    simp only []
    rw [hP, hV, hL]
    norm_num [clampAxis]
  refine ⟨h1, h2, ?_⟩
  rintro ⟨hc, -⟩
  rw [h1] at hc
  norm_num at hc

/-- The C1 scenario with the starting height lowered to `0.005`, so the
particle actually crosses the wall. -/
noncomputable def C1solverAmended : SPHSolver :=
  oneParticleSolver ![1, 1, 1] 0.001 0.01 0 ![0.5, 0.005, 0.5] ![0, -1, 0] 0.02

/-- C1 (amended): in the bounce scenario the starting y must be strictly
below `Δt · |v_y| = 0.01` for the wall test to fire; with the particle
started at `(0.5, 0.005, 0.5)` one `step` indeed teleports it to
`position_y = ε = 10⁻³` and sets `velocity_y = |−1| · 0.5 = +0.5`. -/
theorem C1_amended_bounce :
    C1solverAmended.step.particles.positions 0 1 = 0.001 ∧
    C1solverAmended.step.particles.velocities 0 1 = 0.5 := by
  obtain ⟨hp, hv⟩ := step_single C1solverAmended rfl rfl
  have hP : (C1solverAmended.particles.positions 0 +
      C1solverAmended.dt • C1solverAmended.particles.velocities 0) 1 = -0.005 := by
    norm_num [C1solverAmended, oneParticleSolver]
  have hV : C1solverAmended.particles.velocities 0 1 = -1 := by
    norm_num [C1solverAmended, oneParticleSolver]
  have hL : C1solverAmended.domain_size 1 = 1 := by
    norm_num [C1solverAmended, oneParticleSolver]
  constructor
  · rw [hp]
    unfold apply_boundary
    simp only []
    rw [hP, hV, hL]
    norm_num [clampAxis]
  · rw [hv]
    unfold apply_boundary
    simp only []
    rw [hP, hV, hL]
    norm_num [clampAxis]

lemma iterate_domain_size (s : SPHSolver) (k : ℕ) :
    (SPHSolver.step^[k] s).domain_size = s.domain_size := by
  induction k with
  | zero => rfl
  | succ n ih => rw [Function.iterate_succ_apply', step_domain_size, ih]

lemma iterate_n_active (s : SPHSolver) (k : ℕ) :
    (SPHSolver.step^[k] s).n_active = s.n_active := by
  induction k with
  | zero => rfl
  | succ n ih => rw [Function.iterate_succ_apply', step_n_active, ih]

lemma iterate_inBox (s : SPHSolver) (hL : ∀ a, (0.001 : ℝ) ≤ s.domain_size a)
    (h0 : ∀ i < s.n_active, inBox s.domain_size (s.particles.positions i)) (k : ℕ) :
    ∀ i < s.n_active, inBox s.domain_size
      ((SPHSolver.step^[k] s).particles.positions i) := by
  induction k with
  | zero => exact h0
  | succ n ih =>
    intro i hi
    rw [Function.iterate_succ_apply']
    have hd := iterate_domain_size s n
    have hn := iterate_n_active s n
    have hres := step_inBox (SPHSolver.step^[n] s)
      (fun a => by rw [hd]; exact hL a)
      (fun j hj => by rw [hd]; exact ih j (by rw [← hn]; exact hj))
      i (by rw [hn]; exact hi)
    rw [hd] at hres
    exact hres

/-- The C3 counterexample solver: a legal but tiny domain of extent
`5·10⁻⁴ < ε` on every axis, one in-bounds particle moving in `−x`. -/
noncomputable def C3solver : SPHSolver :=
  oneParticleSolver ![0.0005, 0.0005, 0.0005] 0.001 0.01 0
    ![0.00025, 0.00025, 0.00025] ![-1, 0, 0] 0.02

/-- C3 (counterexample): containment fails for a solver whose domain extent
is smaller than the wall offset `ε = 10⁻³`: the particle starts in bounds,
crosses the lower x-wall in one step, and is teleported to `x = ε = 0.001`,
which lies outside the domain `[0, 0.0005]`. -/
theorem C3_counterexample :
    inBox C3solver.domain_size (C3solver.particles.positions 0) ∧
    C3solver.n_active = 1 ∧
    ¬ inBox C3solver.domain_size (C3solver.step.particles.positions 0) := by
  obtain ⟨hp, -⟩ := step_single C3solver rfl rfl
  have hP : (C3solver.particles.positions 0 +
      C3solver.dt • C3solver.particles.velocities 0) 0 = -0.00975 := by
    norm_num [C3solver, oneParticleSolver]
  have hV : C3solver.particles.velocities 0 0 = -1 := by
    norm_num [C3solver, oneParticleSolver]
  have hL : C3solver.domain_size 0 = 0.0005 := by
    norm_num [C3solver, oneParticleSolver]
  have hx : C3solver.step.particles.positions 0 0 = 0.001 := by
    rw [hp]
    unfold apply_boundary
    simp only []
    rw [hP, hV, hL]
    norm_num [clampAxis]
  refine ⟨?_, rfl, ?_⟩
  · intro a
    fin_cases a <;> norm_num [C3solver, oneParticleSolver]
  · intro hbox
    have := (hbox 0).2
    rw [hx, hL] at this
    norm_num at this

/-- C3 (amended): the containment invariant holds for every solver whose
domain extents are all at least the wall offset `ε = 10⁻³`: starting from
in-bounds live positions, after any number of `step` calls every live
particle satisfies `0 ≤ position[i].a ≤ L.a` on every axis. -/
theorem C3_domain_containment (s : SPHSolver)
    (hL : ∀ a, (0.001 : ℝ) ≤ s.domain_size a)
    (h0 : ∀ i < s.n_active, inBox s.domain_size (s.particles.positions i))
    (k i : ℕ) (hi : i < s.n_active) :
    inBox s.domain_size ((SPHSolver.step^[k] s).particles.positions i) :=
  iterate_inBox s hL h0 k i hi

/-- C3 witness: the unit-box one-particle solver after one step. -/
theorem C3_witness :
    (∀ a, (0.001 : ℝ) ≤ (oneParticleSolver ![1, 1, 1] 0.05 0.001 0
        ![0.5, 0.5, 0.5] 0 1).domain_size a) ∧
    (∀ i < (oneParticleSolver ![1, 1, 1] 0.05 0.001 0
        ![0.5, 0.5, 0.5] 0 1).n_active,
      inBox (oneParticleSolver ![1, 1, 1] 0.05 0.001 0
        ![0.5, 0.5, 0.5] 0 1).domain_size
        ((oneParticleSolver ![1, 1, 1] 0.05 0.001 0
          ![0.5, 0.5, 0.5] 0 1).particles.positions i)) ∧
    inBox (oneParticleSolver ![1, 1, 1] 0.05 0.001 0
        ![0.5, 0.5, 0.5] 0 1).domain_size
      ((SPHSolver.step^[1] (oneParticleSolver ![1, 1, 1] 0.05 0.001 0
        ![0.5, 0.5, 0.5] 0 1)).particles.positions 0) := by
  have hL : ∀ a, (0.001 : ℝ) ≤ (oneParticleSolver ![1, 1, 1] 0.05 0.001 0
      ![0.5, 0.5, 0.5] 0 1).domain_size a := by
    intro a
    fin_cases a <;> norm_num [oneParticleSolver]
  have h0 : ∀ i < (oneParticleSolver ![1, 1, 1] 0.05 0.001 0
      ![0.5, 0.5, 0.5] 0 1).n_active,
      inBox (oneParticleSolver ![1, 1, 1] 0.05 0.001 0
        ![0.5, 0.5, 0.5] 0 1).domain_size
        ((oneParticleSolver ![1, 1, 1] 0.05 0.001 0
          ![0.5, 0.5, 0.5] 0 1).particles.positions i) := by
    intro i _
    intro a
    fin_cases a <;> norm_num [oneParticleSolver]
  exact ⟨hL, h0, C3_domain_containment _ hL h0 1 0 Nat.zero_lt_one⟩

lemma mem_offsets (d : ℤ) (h1 : -1 ≤ d) (h2 : d ≤ 1) : d ∈ offsets := by
  unfold offsets
  interval_cases d <;> simp

/-- Two points within distance `h` of each other land in grid cells at most
one apart (per axis) when the cell side is `h`. -/
lemma floor_dist_le (x y h : ℝ) (hh : 0 < h) (hxy : |x - y| ≤ h) :
    ⌊y / h⌋ - 1 ≤ ⌊x / h⌋ ∧ ⌊x / h⌋ ≤ ⌊y / h⌋ + 1 := by
  obtain ⟨hlo, hhi⟩ := abs_le.1 hxy
  have hle1 : x / h ≤ y / h + 1 := by
    have hx : x ≤ y + h := by linarith
    calc x / h ≤ (y + h) / h := (div_le_div_iff_of_pos_right hh).2 hx
    _ = y / h + 1 := by rw [add_div, div_self hh.ne']
  have hge1 : y / h - 1 ≤ x / h := by
    have hx : y - h ≤ x := by linarith
    calc y / h - 1 = (y - h) / h := by rw [sub_div, div_self hh.ne']
    _ ≤ x / h := (div_le_div_iff_of_pos_right hh).2 hx
  constructor
  · calc ⌊y / h⌋ - 1 = ⌊y / h - 1⌋ := (Int.floor_sub_one _).symm
    _ ≤ ⌊x / h⌋ := Int.floor_le_floor hge1
  · calc ⌊x / h⌋ ≤ ⌊y / h + 1⌋ := Int.floor_le_floor hle1
    _ = ⌊y / h⌋ + 1 := Int.floor_add_one _

/-- C4: the 27-cell query is a superset of the true `h`-neighborhood — after
a grid rebuild with cell side `h` from a position list, every live index
whose position lies within Euclidean distance `h` of the query point is in
the returned list. -/
theorem C4_neighbor_superset (positions : List (Vec3 ℝ)) (h : ℝ) (q : Vec3 ℝ)
    (i : ℕ) (hh : 0 < h) (hi : i < positions.length)
    (hnear : norm3 (positions.getD i 0 - q) ≤ h) :
    i ∈ get_neighbors h (build h positions) q h := by
  have hsq : normSq (positions.getD i 0 - q) ≤ h ^ 2 := by
    have h1 : normSq (positions.getD i 0 - q) =
        norm3 (positions.getD i 0 - q) ^ 2 :=
      (Real.sq_sqrt (normSq_nonneg _)).symm
    rw [h1]
    exact pow_le_pow_left₀ (norm3_nonneg _) hnear 2
  simp only [normSq, Pi.sub_apply] at hsq
  have hax0 : |positions.getD i 0 0 - q 0| ≤ h := by
    rw [abs_le]
    constructor <;> nlinarith [sq_nonneg (positions.getD i 0 1 - q 1),
      sq_nonneg (positions.getD i 0 2 - q 2), sq_nonneg (positions.getD i 0 0 - q 0 + h),
      sq_nonneg (positions.getD i 0 0 - q 0 - h)]
  have hax1 : |positions.getD i 0 1 - q 1| ≤ h := by
    rw [abs_le]
    constructor <;> nlinarith [sq_nonneg (positions.getD i 0 0 - q 0),
      sq_nonneg (positions.getD i 0 2 - q 2), sq_nonneg (positions.getD i 0 1 - q 1 + h),
      sq_nonneg (positions.getD i 0 1 - q 1 - h)]
  have hax2 : |positions.getD i 0 2 - q 2| ≤ h := by
    rw [abs_le]
    constructor <;> nlinarith [sq_nonneg (positions.getD i 0 0 - q 0),
      sq_nonneg (positions.getD i 0 1 - q 1), sq_nonneg (positions.getD i 0 2 - q 2 + h),
      sq_nonneg (positions.getD i 0 2 - q 2 - h)]
  have f0 := floor_dist_le (positions.getD i 0 0) (q 0) h hh hax0
  have f1 := floor_dist_le (positions.getD i 0 1) (q 1) h hh hax1
  have f2 := floor_dist_le (positions.getD i 0 2) (q 2) h hh hax2
  have hpm : i ∈ build h positions (hash_position h (positions.getD i 0)) :=
    (mem_build_iff h positions _ i).2 ⟨hi, rfl⟩
  unfold get_neighbors
  simp only []
  refine List.mem_flatMap.2 ⟨hash_position h (positions.getD i 0), ?_, hpm⟩
  refine List.mem_flatMap.2
    ⟨⌊positions.getD i 0 0 / h⌋ - ⌊q 0 / h⌋, mem_offsets _ (by omega) (by omega), ?_⟩
  refine List.mem_flatMap.2
    ⟨⌊positions.getD i 0 1 / h⌋ - ⌊q 1 / h⌋, mem_offsets _ (by omega) (by omega), ?_⟩
  refine List.mem_map.2
    ⟨⌊positions.getD i 0 2 / h⌋ - ⌊q 2 / h⌋, mem_offsets _ (by omega) (by omega), ?_⟩
  simp only [hash_position, Prod.mk.injEq]
  omega

/-- C4 witness: a single position at the query point itself. -/
theorem C4_witness :
    0 < (1 : ℝ) ∧ 0 < [(fun _ => (0.5 : ℝ) : Vec3 ℝ)].length ∧
    norm3 (([(fun _ => (0.5 : ℝ) : Vec3 ℝ)].getD 0 0) - (fun _ => (0.5 : ℝ))) ≤ 1 ∧
    0 ∈ get_neighbors 1 (build 1 [(fun _ => (0.5 : ℝ) : Vec3 ℝ)]) (fun _ => (0.5 : ℝ)) 1 := by
  have hnear : norm3 (([(fun _ => (0.5 : ℝ) : Vec3 ℝ)].getD 0 0) - (fun _ => (0.5 : ℝ))) ≤ 1 := by
    have hz : (([(fun _ => (0.5 : ℝ) : Vec3 ℝ)].getD 0 0) - (fun _ => (0.5 : ℝ)) : Vec3 ℝ) = 0 := by
      funext a
      simp [List.getD]
    rw [hz]
    unfold norm3 normSq
    norm_num
  exact ⟨one_pos, Nat.zero_lt_one, hnear,
    C4_neighbor_superset _ 1 _ 0 one_pos Nat.zero_lt_one hnear⟩

/-- The force on particle `i` as the spec describes the pass when every
neighbor density is positive: identical to `forceAt` except that the two
`densities[j] > 0` guards are dropped, so no pressure or viscosity term is
ever skipped.  Used only to compare against the guarded source pass. -/
noncomputable def SPHSolver.forceAt_unguarded (s : SPHSolver) (i : ℕ) : Vec3 ℝ :=
  let pos_i := s.particles.positions i
  let vel_i := s.particles.velocities i
  let neighbors := get_neighbors s.h s.spatial_grid pos_i s.h
  let f_pressure := (neighbors.map (fun j =>
    if j = i then 0 else
      let r := pos_i - s.particles.positions j
      let grad_W := spiky_gradient r s.h
      ((-(s.particles.masses j)) *
        ((s.particles.pressures i + s.particles.pressures j) / 2) /
        s.particles.densities j) • grad_W)).sum
  let f_viscosity := (neighbors.map (fun j =>
    if j = i then 0 else
      let r := pos_i - s.particles.positions j
      let lap_W := viscosity_laplacian r s.h
      (s.particles.viscosities i * s.particles.masses j /
        s.particles.densities j * lap_W) • (s.particles.velocities j - vel_i))).sum
  f_pressure + f_viscosity + s.particles.masses i • s.gravity

/-- The force pass with the density guards dropped (spec-side comparison
definition for C10). -/
noncomputable def SPHSolver.compute_forces_unguarded (s : SPHSolver) : SPHSolver :=
  { s with
    particles := { s.particles with
      forces := fun i =>
        if i < s.n_active then s.forceAt_unguarded i else s.particles.forces i } }

/-- C10: every division by a neighbor's density in the force pass sits under
a `densities[j] > 0` guard, and when `compute_forces` runs right after
`compute_density_pressure` (as in `step`) with a positive rest density, the
guard never fails: every live density is positive, so the guarded pass
computes exactly the same forces as the pass with the guards dropped — no
pressure or viscosity term is skipped. -/
theorem C10_density_guard_never_skips (s : SPHSolver) (hρ : 0 < s.rest_density) :
    (∀ j < s.compute_density_pressure.n_active,
      0 < s.compute_density_pressure.particles.densities j) ∧
    s.compute_density_pressure.compute_forces =
      s.compute_density_pressure.compute_forces_unguarded := by
  have hn : s.compute_density_pressure.n_active = s.n_active := rfl
  have hdens : ∀ j < s.compute_density_pressure.n_active,
      0 < s.compute_density_pressure.particles.densities j := by
    intro j hj
    rw [hn] at hj
    have hval : s.compute_density_pressure.particles.densities j = s.densityAt j := by
      simp only [SPHSolver.compute_density_pressure]
      rw [if_pos hj]
    rw [hval]
    unfold SPHSolver.densityAt
    simp only []
    exact lt_of_lt_of_le (mul_pos hρ (by norm_num)) (le_max_right _ _)
  refine ⟨hdens, ?_⟩
  have hkey : ∀ i, s.compute_density_pressure.forceAt i =
      s.compute_density_pressure.forceAt_unguarded i := by
    intro i
    have hmem : ∀ j ∈ get_neighbors s.compute_density_pressure.h
        s.compute_density_pressure.spatial_grid
        (s.compute_density_pressure.particles.positions i)
        s.compute_density_pressure.h,
        s.compute_density_pressure.particles.densities j > 0 := by
      intro j hj
      have hgrid : s.compute_density_pressure.spatial_grid
          = build s.h s.livePositions := rfl
      rw [hgrid] at hj
      have hlt := mem_get_neighbors_lt _ _ _ _ _ hj
      rw [livePositions_length] at hlt
      exact hdens j (by rw [hn]; exact hlt)
    unfold SPHSolver.forceAt SPHSolver.forceAt_unguarded
    simp only []
    refine congrArg₂ (· + ·) (congrArg₂ (· + ·) ?_ ?_) rfl <;>
      refine congrArg List.sum (List.map_congr_left ?_) <;> intro j hj
    · by_cases hji : j = i
      · rw [if_pos hji, if_pos hji]
      · rw [if_neg hji, if_neg hji, if_pos (hmem j hj)]
    · by_cases hji : j = i
      · rw [if_pos hji, if_pos hji]
      · rw [if_neg hji, if_neg hji, if_pos (hmem j hj)]
  unfold SPHSolver.compute_forces SPHSolver.compute_forces_unguarded
  congr 1
  simp only []
  congr 1
  funext i
  by_cases hi : i < s.compute_density_pressure.n_active
  · rw [if_pos hi, if_pos hi, hkey i]
  · rw [if_neg hi, if_neg hi]

/-- C10 witness at a concrete one-particle solver with `ρ₀ = 1000 > 0`. -/
theorem C10_witness :
    0 < (oneParticleSolver ![1, 1, 1] 0.05 0.001 0
        ![0.5, 0.5, 0.5] 0 1).rest_density ∧
    ((∀ j < (oneParticleSolver ![1, 1, 1] 0.05 0.001 0
        ![0.5, 0.5, 0.5] 0 1).compute_density_pressure.n_active,
      0 < (oneParticleSolver ![1, 1, 1] 0.05 0.001 0
        ![0.5, 0.5, 0.5] 0 1).compute_density_pressure.particles.densities j) ∧
    (oneParticleSolver ![1, 1, 1] 0.05 0.001 0
        ![0.5, 0.5, 0.5] 0 1).compute_density_pressure.compute_forces =
      (oneParticleSolver ![1, 1, 1] 0.05 0.001 0
        ![0.5, 0.5, 0.5] 0 1).compute_density_pressure.compute_forces_unguarded) := by
  have hρ : 0 < (oneParticleSolver ![1, 1, 1] 0.05 0.001 0
      ![0.5, 0.5, 0.5] 0 1).rest_density := by
    norm_num [oneParticleSolver]
  exact ⟨hρ, C10_density_guard_never_skips _ hρ⟩

/-- Counting behaviour of the insertion loop when capacity suffices: no
abort, and exactly `min(#lattice points, n − count)` particles are placed. -/
lemma box_insert_loop_spec (origin : Vec3 ℝ) (spacing : ℝ) (n : ℕ) (color : Vec3 ℝ)
    (visc : ℝ) (jitter : ℕ × ℕ × ℕ → Vec3 ℝ) :
    ∀ (pts : List (ℕ × ℕ × ℕ)) (t : SPHSolver) (count : ℕ),
    t.particles.n_particles + min pts.length (n - count) ≤ t.particles.max_particles →
    (box_insert_loop origin spacing n color visc jitter pts t count).2.1
      = count + min pts.length (n - count) ∧
    (box_insert_loop origin spacing n color visc jitter pts t count).2.2 = false ∧
    (box_insert_loop origin spacing n color visc jitter pts t count).1.n_active
      = t.n_active + min pts.length (n - count) ∧
    (box_insert_loop origin spacing n color visc jitter pts t count).1.particles.n_particles
      = t.particles.n_particles + min pts.length (n - count) := by
  intro pts
  induction pts with
  | nil =>
    intro t count hcap
    simp [box_insert_loop]
  | cons pt rest ih =>
    intro t count hcap
    by_cases hstop : n ≤ count
    · have hmin : min (pt :: rest).length (n - count) = 0 := by
        simp only [List.length_cons]
        omega
      rw [box_insert_loop, if_pos hstop, hmin]
      simp
    · have hmin : min (pt :: rest).length (n - count)
          = min rest.length (n - (count + 1)) + 1 := by
        simp only [List.length_cons]
        omega
      have hnotfull : ¬ (t.particles.n_particles ≥ t.particles.max_particles) := by
        rw [hmin] at hcap
        omega
      rw [box_insert_loop, if_neg hstop]
      unfold ParticleSystem.add_particle
      simp only []
      rw [if_neg hnotfull]
      simp only []
      have hcap' : t.particles.n_particles + 1 + min rest.length (n - (count + 1))
          ≤ t.particles.max_particles := by
        rw [hmin] at hcap
        omega
      have hres := ih { t with
          particles := { t.particles with
            positions := Function.update t.particles.positions t.particles.n_particles
              (clipVec (origin +
                  (fun a => (![(pt.1 : ℝ), (pt.2.1 : ℝ), (pt.2.2 : ℝ)] a) * spacing) +
                  spacing • jitter pt) 0 t.domain_size)
            velocities := Function.update t.particles.velocities t.particles.n_particles 0
            masses := Function.update t.particles.masses t.particles.n_particles t.particle_mass
            colors := Function.update t.particles.colors t.particles.n_particles color
            viscosities := Function.update t.particles.viscosities t.particles.n_particles visc
            densities := Function.update t.particles.densities t.particles.n_particles 0
            pressures := Function.update t.particles.pressures t.particles.n_particles 0
            forces := Function.update t.particles.forces t.particles.n_particles 0
            n_particles := t.particles.n_particles + 1 }
          n_active := t.n_active + 1 } (count + 1) hcap'
      rw [hmin]
      refine ⟨?_, hres.2.1, ?_, ?_⟩
      · rw [hres.1]
        omega
      · rw [hres.2.2.1]
        simp only []
        omega
      · rw [hres.2.2.2]
        simp only []
        omega

lemma Int_log2_eq (x : ℝ) (k : ℤ) (h1 : (2:ℝ) ^ k ≤ x) (h2 : x < (2:ℝ) ^ (k + 1)) :
    Int.log 2 x = k := by
  have hx : 0 < x := lt_of_lt_of_le (zpow_pos (by norm_num) k) h1
  have hle : k ≤ Int.log 2 x := by
    have hm := Int.log_mono_right (b := 2) (zpow_pos (by norm_num : (0:ℝ) < 2) k) h1
    rwa [show (2:ℝ) = ((2:ℕ):ℝ) by norm_num,
      Int.log_zpow (R := ℝ) (by norm_num : 1 < 2) k] at hm
  have hge : Int.log 2 x ≤ k := by
    by_contra hc
    push_neg at hc
    have h3 : (2:ℝ) ^ (k + 1) ≤ (2:ℝ) ^ Int.log 2 x :=
      zpow_le_zpow_right₀ (by norm_num) (by omega)
    have h4 : ((2:ℕ):ℝ) ^ Int.log 2 x ≤ x :=
      Int.zpow_log_le_self (by norm_num) hx
    rw [show ((2:ℕ):ℝ) = (2:ℝ) by norm_num] at h4
    linarith
  omega

lemma roundTiesEven_eq (m : ℝ) (N : ℤ) (h1 : (N:ℝ) - 1/2 < m) (h2 : m < (N:ℝ) + 1/2) :
    roundTiesEven m = N := by
  rcases lt_or_le m N with hm | hm
  · have hf : ⌊m⌋ = N - 1 := by
      rw [Int.floor_eq_iff]
      constructor
      · push_cast
        linarith
      · push_cast
        linarith
    unfold roundTiesEven
    rw [hf]
    have hc1 : ¬ (m - ((N - 1 : ℤ) : ℝ) < 1/2) := not_lt.2 (by push_cast; linarith)
    have hc2 : (1:ℝ)/2 < m - ((N - 1 : ℤ) : ℝ) := by push_cast; linarith
    rw [if_neg hc1, if_pos hc2]
    omega
  · have hf : ⌊m⌋ = N := by
      rw [Int.floor_eq_iff]
      constructor
      · exact hm
      · linarith
    unfold roundTiesEven
    rw [hf]
    rw [if_pos (by linarith : m - ((N : ℤ) : ℝ) < 1/2)]

/-- Evaluation rule for `fp64`: a real lying strictly inside the half-ulp
interval of the normal binary64 value `N·2^e` (with `2^52 < N < 2^53`)
rounds to it. -/
lemma fp64_eq (x : ℝ) (N e : ℤ) (hN1 : 2^52 < N) (hN2 : N < 2^53)
    (hlo : ((N:ℝ) - 1/2) * 2 ^ e < x) (hhi : x < ((N:ℝ) + 1/2) * 2 ^ e) :
    fp64 x = (N:ℝ) * 2 ^ e := by
  have h2e : (0:ℝ) < 2 ^ e := zpow_pos (by norm_num) e
  have hp52 : (0:ℝ) < (2:ℝ)^(52:ℕ) := by positivity
  have hNr : (2:ℝ)^(52:ℕ) + 1 ≤ (N:ℝ) := by
    exact_mod_cast (by omega : (2^52 + 1 : ℤ) ≤ N)
  have hNr2 : (N:ℝ) ≤ (2:ℝ)^(53:ℕ) - 1 := by
    exact_mod_cast (by omega : N ≤ (2^53 - 1 : ℤ))
  have hx : 0 < x := by
    have h0 : (0:ℝ) < ((N:ℝ) - 1/2) * 2 ^ e := by
      apply mul_pos _ h2e
      linarith
    linarith
  have hxe : x ≠ 0 := ne_of_gt hx
  have hlog : Int.log 2 |x| = 52 + e := by
    rw [abs_of_pos hx]
    apply Int_log2_eq
    · have hsplit : (2:ℝ) ^ (52 + e : ℤ) = (2:ℝ)^(52:ℕ) * 2 ^ e := by
        rw [zpow_add₀ (by norm_num : (2:ℝ) ≠ 0)]
        norm_num
      rw [hsplit]
      calc (2:ℝ)^(52:ℕ) * 2 ^ e ≤ ((N:ℝ) - 1/2) * 2 ^ e := by
            apply mul_le_mul_of_nonneg_right _ h2e.le
            linarith
      _ ≤ x := hlo.le
    · have hsplit : (2:ℝ) ^ (52 + e + 1 : ℤ) = (2:ℝ)^(53:ℕ) * 2 ^ e := by
        rw [show (52 + e + 1 : ℤ) = 53 + e by ring,
          zpow_add₀ (by norm_num : (2:ℝ) ≠ 0)]
        norm_num
      rw [hsplit]
      calc x < ((N:ℝ) + 1/2) * 2 ^ e := hhi
      _ ≤ (2:ℝ)^(53:ℕ) * 2 ^ e := by
            apply mul_le_mul_of_nonneg_right _ h2e.le
            linarith
  unfold fp64
  rw [if_neg hxe, hlog, show (52 : ℤ) + e - 52 = e by ring]
  have hm : roundTiesEven (x / 2 ^ e) = N := by
    apply roundTiesEven_eq
    · rw [lt_div_iff₀ h2e]
      exact hlo
    · rw [div_lt_iff₀ h2e]
      exact hhi
  rw [hm]

/-- Computed value of `0.4 * 0.4` in binary64: `0.16000000000000003`. -/
lemma fp_step1 : fp64 (double04 * double04) = 5764607523034236 / 2 ^ 55 := by
  have h := fp64_eq (double04 * double04) 5764607523034236 (-55)
    (by norm_num) (by norm_num)
    (by unfold double04; norm_num) (by unfold double04; norm_num)
  rw [h]
  norm_num

/-- Computed value of `(0.4 * 0.4) * 0.4` in binary64: `0.06400000000000002`. -/
lemma fp_step2 : fp64 ((5764607523034236 / 2 ^ 55) * double04)
    = 4611686018427389 / 2 ^ 56 := by
  have h := fp64_eq ((5764607523034236 / 2 ^ 55) * double04) 4611686018427389 (-56)
    (by norm_num) (by norm_num)
    (by unfold double04; norm_num) (by unfold double04; norm_num)
  rw [h]
  norm_num

/-- The division of the volume by 64 is exact: `0.0010000000000000002`. -/
lemma fp_step3 : fp64 ((4611686018427389 / 2 ^ 56 : ℝ) / ((64:ℕ):ℝ))
    = 4611686018427389 / 2 ^ 62 := by
  have h := fp64_eq ((4611686018427389 / 2 ^ 56 : ℝ) / ((64:ℕ):ℝ)) 4611686018427389 (-62)
    (by norm_num) (by norm_num) (by norm_num) (by norm_num)
  rw [h]
  norm_num

/-- Python's `(1/3)` in binary64. -/
lemma fp_onethird : fp64 ((1:ℝ)/3) = 6004799503160661 / 2 ^ 54 := by
  have h := fp64_eq ((1:ℝ)/3) 6004799503160661 (-54)
    (by norm_num) (by norm_num) (by norm_num) (by norm_num)
  rw [h]
  norm_num

/-- The true real power `0.0010000000000000002… ^ 0.33333333333333331…` lies
strictly inside the half-ulp interval of the binary64 value
`7205759403792795 · 2⁻⁵⁶ = 0.10000000000000002` (0.59 and 0.41 ulp from the
two boundaries).  Proof: cube the power (the tripled exponent is exactly
`1 − 2⁻⁵⁴`), split off the tiny factor `V^(2⁻⁵⁴) = exp(2⁻⁵⁴ · log V)`, and
bound it with the `log x ≤ x − 1` and `1 + x ≤ exp x` inequalities plus the
numeric bounds on `log 2`. -/
lemma pow_bound :
    (((7205759403792795:ℝ) - 1/2) / 2 ^ 56 <
      ((4611686018427389:ℝ) / 2 ^ 62) ^ ((6004799503160661:ℝ) / 2 ^ 54)) ∧
    (((4611686018427389:ℝ) / 2 ^ 62) ^ ((6004799503160661:ℝ) / 2 ^ 54) <
      ((7205759403792795:ℝ) + 1/2) / 2 ^ 56) := by
  have hVpos : (0:ℝ) < 4611686018427389 / 2 ^ 62 := by norm_num
  have hr3 : (((4611686018427389:ℝ) / 2 ^ 62) ^ ((6004799503160661:ℝ) / 2 ^ 54)) ^ (3:ℕ)
      = ((4611686018427389:ℝ) / 2 ^ 62) /
        ((4611686018427389:ℝ) / 2 ^ 62) ^ ((1:ℝ)/2^54) := by
    rw [← Real.rpow_natCast
      (((4611686018427389:ℝ) / 2 ^ 62) ^ ((6004799503160661:ℝ) / 2 ^ 54)) 3,
      ← Real.rpow_mul hVpos.le,
      show ((6004799503160661:ℝ) / 2 ^ 54) * ((3:ℕ):ℝ) = 1 - (1:ℝ)/2^54 by
        push_cast; norm_num,
      Real.rpow_sub hVpos, Real.rpow_one]
  have hw : ((4611686018427389:ℝ) / 2 ^ 62) ^ ((1:ℝ)/2^54)
      = Real.exp (Real.log ((4611686018427389:ℝ) / 2 ^ 62) * ((1:ℝ)/2^54)) :=
    Real.rpow_def_of_pos hVpos _
  have hapos : (0:ℝ) < 4611686018427389 / 2 ^ 52 := by norm_num
  have hloga_ub := Real.log_le_sub_one_of_pos hapos
  have hloga_lb : 1 - ((4611686018427389:ℝ) / 2 ^ 52)⁻¹
      ≤ Real.log ((4611686018427389:ℝ) / 2 ^ 52) := by
    have h1 := Real.log_le_sub_one_of_pos (inv_pos.2 hapos)
    rw [Real.log_inv] at h1
    linarith
  have hVa : (4611686018427389:ℝ) / 2 ^ 62
      = ((4611686018427389:ℝ) / 2 ^ 52) / 2 ^ (10:ℕ) := by
    norm_num
  have hlogV : Real.log ((4611686018427389:ℝ) / 2 ^ 62)
      = Real.log ((4611686018427389:ℝ) / 2 ^ 52) - 10 * Real.log 2 := by
    rw [hVa, Real.log_div hapos.ne' (by norm_num), Real.log_pow]
    push_cast
    ring
  have hl2lo := Real.log_two_gt_d9
  have hl2hi := Real.log_two_lt_d9
  have hVub : Real.log ((4611686018427389:ℝ) / 2 ^ 62)
      ≤ ((4611686018427389:ℝ) / 2 ^ 52 - 1) - 10 * (0.6931471803 : ℝ) := by
    rw [hlogV]
    linarith
  have hVlb : (1 - ((4611686018427389:ℝ) / 2 ^ 52)⁻¹) - 10 * (0.6931471808 : ℝ)
      ≤ Real.log ((4611686018427389:ℝ) / 2 ^ 62) := by
    rw [hlogV]
    linarith
  have hyub : Real.log ((4611686018427389:ℝ) / 2 ^ 62) * ((1:ℝ)/2^54)
      ≤ (((4611686018427389:ℝ) / 2 ^ 52 - 1) - 10 * (0.6931471803 : ℝ))/2^54 := by
    rw [mul_one_div]
    exact (div_le_div_iff_of_pos_right (by norm_num)).2 hVub
  have hylb : ((1 - ((4611686018427389:ℝ) / 2 ^ 52)⁻¹) - 10 * (0.6931471808 : ℝ))/2^54
      ≤ Real.log ((4611686018427389:ℝ) / 2 ^ 62) * ((1:ℝ)/2^54) := by
    rw [mul_one_div]
    exact (div_le_div_iff_of_pos_right (by norm_num)).2 hVlb
  have hwlb : 1 + ((1 - ((4611686018427389:ℝ) / 2 ^ 52)⁻¹) - 10 * (0.6931471808 : ℝ))/2^54
      ≤ Real.exp (Real.log ((4611686018427389:ℝ) / 2 ^ 62) * ((1:ℝ)/2^54)) := by
    have h5 := Real.add_one_le_exp
      (Real.log ((4611686018427389:ℝ) / 2 ^ 62) * ((1:ℝ)/2^54))
    linarith
  have hden : (0:ℝ) < 1 - (((4611686018427389:ℝ) / 2 ^ 52 - 1)
      - 10 * (0.6931471803 : ℝ))/2^54 := by
    norm_num
  have hwub : Real.exp (Real.log ((4611686018427389:ℝ) / 2 ^ 62) * ((1:ℝ)/2^54))
      ≤ (1 - (((4611686018427389:ℝ) / 2 ^ 52 - 1) - 10 * (0.6931471803 : ℝ))/2^54)⁻¹ := by
    have hmono := Real.exp_le_exp.2 hyub
    have h5 := Real.add_one_le_exp
      (-((((4611686018427389:ℝ) / 2 ^ 52 - 1) - 10 * (0.6931471803 : ℝ))/2^54))
    have h6 : (1 - (((4611686018427389:ℝ) / 2 ^ 52 - 1) - 10 * (0.6931471803 : ℝ))/2^54) *
        Real.exp ((((4611686018427389:ℝ) / 2 ^ 52 - 1) - 10 * (0.6931471803 : ℝ))/2^54)
          ≤ 1 := by
      have h8 : (1 - (((4611686018427389:ℝ) / 2 ^ 52 - 1)
            - 10 * (0.6931471803 : ℝ))/2^54) *
          Real.exp ((((4611686018427389:ℝ) / 2 ^ 52 - 1) - 10 * (0.6931471803 : ℝ))/2^54)
          ≤ Real.exp (-((((4611686018427389:ℝ) / 2 ^ 52 - 1)
            - 10 * (0.6931471803 : ℝ))/2^54)) *
          Real.exp ((((4611686018427389:ℝ) / 2 ^ 52 - 1)
            - 10 * (0.6931471803 : ℝ))/2^54) :=
        mul_le_mul_of_nonneg_right (by linarith) (Real.exp_pos _).le
      rwa [← Real.exp_add, neg_add_cancel, Real.exp_zero] at h8
    rw [inv_eq_one_div, le_div_iff₀ hden]
    calc Real.exp (Real.log ((4611686018427389:ℝ) / 2 ^ 62) * ((1:ℝ)/2^54)) *
        (1 - (((4611686018427389:ℝ) / 2 ^ 52 - 1) - 10 * (0.6931471803 : ℝ))/2^54)
        ≤ Real.exp ((((4611686018427389:ℝ) / 2 ^ 52 - 1) - 10 * (0.6931471803 : ℝ))/2^54) *
          (1 - (((4611686018427389:ℝ) / 2 ^ 52 - 1) - 10 * (0.6931471803 : ℝ))/2^54) :=
          mul_le_mul_of_nonneg_right hmono hden.le
    _ ≤ 1 := by rw [mul_comm]; exact h6
  have hwpos : (0:ℝ) < Real.exp
      (Real.log ((4611686018427389:ℝ) / 2 ^ 62) * ((1:ℝ)/2^54)) :=
    Real.exp_pos _
  have hLlopos : (0:ℝ) < 1 + ((1 - ((4611686018427389:ℝ) / 2 ^ 52)⁻¹)
      - 10 * (0.6931471808 : ℝ))/2^54 := by
    norm_num
  have hdivlb : ((4611686018427389:ℝ) / 2 ^ 62) *
      (1 - (((4611686018427389:ℝ) / 2 ^ 52 - 1) - 10 * (0.6931471803 : ℝ))/2^54)
      ≤ ((4611686018427389:ℝ) / 2 ^ 62) /
        Real.exp (Real.log ((4611686018427389:ℝ) / 2 ^ 62) * ((1:ℝ)/2^54)) := by
    rw [le_div_iff₀ hwpos]
    calc ((4611686018427389:ℝ) / 2 ^ 62) *
        (1 - (((4611686018427389:ℝ) / 2 ^ 52 - 1) - 10 * (0.6931471803 : ℝ))/2^54) *
        Real.exp (Real.log ((4611686018427389:ℝ) / 2 ^ 62) * ((1:ℝ)/2^54))
        ≤ ((4611686018427389:ℝ) / 2 ^ 62) *
          (1 - (((4611686018427389:ℝ) / 2 ^ 52 - 1) - 10 * (0.6931471803 : ℝ))/2^54) *
          (1 - (((4611686018427389:ℝ) / 2 ^ 52 - 1) - 10 * (0.6931471803 : ℝ))/2^54)⁻¹ :=
          mul_le_mul_of_nonneg_left hwub (mul_nonneg hVpos.le hden.le)
    _ = (4611686018427389:ℝ) / 2 ^ 62 := by
          rw [mul_assoc, mul_inv_cancel₀ hden.ne', mul_one]
  have hdivub : ((4611686018427389:ℝ) / 2 ^ 62) /
        Real.exp (Real.log ((4611686018427389:ℝ) / 2 ^ 62) * ((1:ℝ)/2^54))
      ≤ ((4611686018427389:ℝ) / 2 ^ 62) /
        (1 + ((1 - ((4611686018427389:ℝ) / 2 ^ 52)⁻¹) - 10 * (0.6931471808 : ℝ))/2^54) := by
    rw [div_le_div_iff₀ hwpos hLlopos]
    exact mul_le_mul_of_nonneg_left hwlb hVpos.le
  have hq3lo : ((((7205759403792795:ℝ) - 1/2) / 2 ^ 56))^(3:ℕ)
      < ((4611686018427389:ℝ) / 2 ^ 62) *
        (1 - (((4611686018427389:ℝ) / 2 ^ 52 - 1) - 10 * (0.6931471803 : ℝ))/2^54) := by
    norm_num
  have hq3hi : ((4611686018427389:ℝ) / 2 ^ 62) /
        (1 + ((1 - ((4611686018427389:ℝ) / 2 ^ 52)⁻¹) - 10 * (0.6931471808 : ℝ))/2^54)
      < ((((7205759403792795:ℝ) + 1/2) / 2 ^ 56))^(3:ℕ) := by
    rw [div_lt_iff₀ hLlopos]
    norm_num
  have hcube_lo : ((((7205759403792795:ℝ) - 1/2) / 2 ^ 56))^(3:ℕ)
      < (((4611686018427389:ℝ) / 2 ^ 62) ^ ((6004799503160661:ℝ) / 2 ^ 54))^(3:ℕ) := by
    rw [hr3, hw]
    linarith
  have hcube_hi : (((4611686018427389:ℝ) / 2 ^ 62) ^ ((6004799503160661:ℝ) / 2 ^ 54))^(3:ℕ)
      < ((((7205759403792795:ℝ) + 1/2) / 2 ^ 56))^(3:ℕ) := by
    rw [hr3, hw]
    linarith
  have hrpos : (0:ℝ) ≤ ((4611686018427389:ℝ) / 2 ^ 62) ^ ((6004799503160661:ℝ) / 2 ^ 54) :=
    (Real.rpow_pos_of_pos hVpos _).le
  constructor
  · by_contra hc
    push_neg at hc
    have h1 := pow_le_pow_left₀ hrpos hc 3
    linarith
  · by_contra hc
    push_neg at hc
    have h1 := pow_le_pow_left₀
      (by norm_num : (0:ℝ) ≤ ((7205759403792795:ℝ) + 1/2) / 2 ^ 56) hc 3
    linarith

/-- The correctly rounded binary64 power: `0.10000000000000002`, one ulp
above `0.1`. -/
lemma fp_pow : fp64 (((4611686018427389:ℝ) / 2 ^ 62) ^ ((6004799503160661:ℝ) / 2 ^ 54))
    = 7205759403792795 / 2 ^ 56 := by
  have h := fp64_eq (((4611686018427389:ℝ) / 2 ^ 62) ^ ((6004799503160661:ℝ) / 2 ^ 54))
    7205759403792795 (-56) (by norm_num) (by norm_num)
    (by have := pow_bound.1; push_cast; norm_num; linarith [this])
    (by have := pow_bound.2; push_cast; norm_num; linarith [this])
  rw [h]
  norm_num

/-- Computed value of `0.4 / 0.10000000000000002` in binary64:
`3.9999999999999996`, which `int()` truncates to 3. -/
lemma fp_div_spacing : fp64 (double04 / ((7205759403792795:ℝ) / 2 ^ 56))
    = 9007199254740991 / 2 ^ 51 := by
  have h := fp64_eq (double04 / ((7205759403792795:ℝ) / 2 ^ 56)) 9007199254740991 (-51)
    (by norm_num) (by norm_num)
    (by unfold double04; norm_num)
    (by unfold double04; norm_num)
  rw [h]
  norm_num

lemma box_spacing_float :
    box_spacing ![double04, double04, double04] 64 = 7205759403792795 / 2 ^ 56 := by
  have hv0 : (![double04, double04, double04] : Vec3 ℝ) 0 = double04 := rfl
  have hv1 : (![double04, double04, double04] : Vec3 ℝ) 1 = double04 := rfl
  have hv2 : (![double04, double04, double04] : Vec3 ℝ) 2 = double04 := rfl
  unfold box_spacing
  rw [hv0, hv1, hv2, fp_step1, fp_step2, fp_step3, fp_onethird, fp_pow]

lemma box_dims_float : box_dims ![double04, double04, double04] 64 = (3, 3, 3) := by
  have hv0 : (![double04, double04, double04] : Vec3 ℝ) 0 = double04 := rfl
  have hv1 : (![double04, double04, double04] : Vec3 ℝ) 1 = double04 := rfl
  have hv2 : (![double04, double04, double04] : Vec3 ℝ) 2 = double04 := rfl
  have htr : int_trunc ((9007199254740991:ℝ) / 2 ^ 51) = 3 := by
    unfold int_trunc
    rw [if_neg (by norm_num : ¬ ((9007199254740991:ℝ) / 2 ^ 51) < 0)]
    rw [Int.floor_eq_iff]
    constructor
    · norm_num
    · norm_num
  unfold box_dims
  simp only []
  rw [box_spacing_float, hv0, hv1, hv2, fp_div_spacing, htr]
  rfl

/-- Counting consequence of the float spacing: a `(0.4, 0.4, 0.4)` box
targeting 64 particles places exactly 27 of them (3 × 3 × 3), with no
capacity error, when 27 slots remain. -/
lemma add_fluid_box_float (s : SPHSolver) (origin color : Vec3 ℝ) (visc : ℝ)
    (jitter : ℕ × ℕ × ℕ → Vec3 ℝ)
    (hcap : s.particles.n_particles + 27 ≤ s.particles.max_particles) :
    (s.add_fluid_box origin ![double04, double04, double04] 64 color visc jitter).2.1 = 27 ∧
    (s.add_fluid_box origin ![double04, double04, double04] 64 color visc jitter).2.2 = false ∧
    (s.add_fluid_box origin ![double04, double04, double04] 64 color visc jitter).1.n_active
      = s.n_active + 27 := by
  have hlat : (latticePoints 3 3 3).length = 27 := by decide
  have hloop := box_insert_loop_spec origin
    (box_spacing ![double04, double04, double04] 64) 64 color visc jitter
    (latticePoints 3 3 3) s 0 (by rw [hlat]; simpa using hcap)
  rw [hlat] at hloop
  simp only [Nat.sub_zero, Nat.zero_add] at hloop
  have hmin : min 27 64 = 27 := by norm_num
  rw [hmin] at hloop
  have hbox : s.add_fluid_box origin ![double04, double04, double04] 64 color visc jitter
      = box_insert_loop origin (box_spacing ![double04, double04, double04] 64) 64
        color visc jitter (latticePoints 3 3 3) s 0 := by
    unfold SPHSolver.add_fluid_box
    rw [box_dims_float]
  exact ⟨by rw [hbox]; exact hloop.1, by rw [hbox]; exact hloop.2.1,
    by rw [hbox]; exact hloop.2.2.1⟩

/-- C7 (counterexample): at the claim's own input — a box whose size is the
binary64 value of `0.4` on each axis, targeting 64 particles — the program's
double-precision arithmetic computes spacing `0.10000000000000002` (the
binary64 `7205759403792795·2⁻⁵⁶`, one ulp above `0.1` and ≠ `0.1`), lattice
dimensions 3 × 3 × 3, and places exactly 27 particles, not 64. -/
theorem C7_counterexample :
    box_spacing ![double04, double04, double04] 64 = 7205759403792795 / 2 ^ 56 ∧
    box_spacing ![double04, double04, double04] 64 ≠ 0.1 ∧
    box_dims ![double04, double04, double04] 64 = (3, 3, 3) ∧
    ((oneParticleSolver ![1, 1, 1] 0.05 0.001 0 ![0.5, 0.5, 0.5] 0 1).add_fluid_box
        ![0.2, 0.2, 0.2] ![double04, double04, double04] 64 0 0.001 (fun _ => 0)).2.1 = 27 ∧
    ((oneParticleSolver ![1, 1, 1] 0.05 0.001 0 ![0.5, 0.5, 0.5] 0 1).add_fluid_box
        ![0.2, 0.2, 0.2] ![double04, double04, double04] 64 0 0.001 (fun _ => 0)).2.1 ≠ 64 := by
  have hcap : (oneParticleSolver ![1, 1, 1] 0.05 0.001 0 ![0.5, 0.5, 0.5] 0
      1).particles.n_particles + 27 ≤
      (oneParticleSolver ![1, 1, 1] 0.05 0.001 0 ![0.5, 0.5, 0.5] 0
        1).particles.max_particles := by
    norm_num [oneParticleSolver]
  have hc := add_fluid_box_float (oneParticleSolver ![1, 1, 1] 0.05 0.001 0
    ![0.5, 0.5, 0.5] 0 1) ![0.2, 0.2, 0.2] 0 0.001 (fun _ => 0) hcap
  refine ⟨box_spacing_float, ?_, box_dims_float, hc.1, ?_⟩
  · rw [box_spacing_float]
    norm_num
  · rw [hc.1]
    norm_num

/-- C7 (amended): for the box-insertion scenario `size = (0.4, 0.4, 0.4)`,
`n = 64`, the program's binary64 arithmetic yields lattice spacing
`0.10000000000000002 = 7205759403792795·2⁻⁵⁶` (one ulp above `0.1`), lattice
dimensions 3 × 3 × 3, and — whenever 27 capacity slots remain — exactly 27
particles placed with no capacity error.  The claimed `Δ = 0.1`, 4 × 4 × 4,
64 particles would require exact real arithmetic. -/
theorem C7_float_box_insertion (s : SPHSolver) (origin color : Vec3 ℝ) (visc : ℝ)
    (jitter : ℕ × ℕ × ℕ → Vec3 ℝ)
    (hcap : s.particles.n_particles + 27 ≤ s.particles.max_particles) :
    box_spacing ![double04, double04, double04] 64 = 7205759403792795 / 2 ^ 56 ∧
    box_dims ![double04, double04, double04] 64 = (3, 3, 3) ∧
    (s.add_fluid_box origin ![double04, double04, double04] 64 color visc jitter).2.1 = 27 ∧
    (s.add_fluid_box origin ![double04, double04, double04] 64 color visc jitter).2.2 = false ∧
    (s.add_fluid_box origin ![double04, double04, double04] 64 color visc jitter).1.n_active
      = s.n_active + 27 := by
  have hc := add_fluid_box_float s origin color visc jitter hcap
  exact ⟨box_spacing_float, box_dims_float, hc.1, hc.2.1, hc.2.2⟩

/-- C7 witness at a concrete solver with 1 live particle and capacity 100. -/
theorem C7_float_witness :
    (oneParticleSolver ![1, 1, 1] 0.05 0.001 0 ![0.5, 0.5, 0.5] 0
        1).particles.n_particles + 27 ≤
      (oneParticleSolver ![1, 1, 1] 0.05 0.001 0 ![0.5, 0.5, 0.5] 0
        1).particles.max_particles ∧
    (box_spacing ![double04, double04, double04] 64 = 7205759403792795 / 2 ^ 56 ∧
     box_dims ![double04, double04, double04] 64 = (3, 3, 3) ∧
     ((oneParticleSolver ![1, 1, 1] 0.05 0.001 0 ![0.5, 0.5, 0.5] 0
        1).add_fluid_box ![0.6, 0.6, 0.6] ![double04, double04, double04] 64 0 0.001
        (fun _ => 0)).2.1 = 27 ∧
     ((oneParticleSolver ![1, 1, 1] 0.05 0.001 0 ![0.5, 0.5, 0.5] 0
        1).add_fluid_box ![0.6, 0.6, 0.6] ![double04, double04, double04] 64 0 0.001
        (fun _ => 0)).2.2 = false ∧
     ((oneParticleSolver ![1, 1, 1] 0.05 0.001 0 ![0.5, 0.5, 0.5] 0
        1).add_fluid_box ![0.6, 0.6, 0.6] ![double04, double04, double04] 64 0 0.001
        (fun _ => 0)).1.n_active =
      (oneParticleSolver ![1, 1, 1] 0.05 0.001 0 ![0.5, 0.5, 0.5] 0 1).n_active + 27) := by
  have hcap : (oneParticleSolver ![1, 1, 1] 0.05 0.001 0 ![0.5, 0.5, 0.5] 0
      1).particles.n_particles + 27 ≤
      (oneParticleSolver ![1, 1, 1] 0.05 0.001 0 ![0.5, 0.5, 0.5] 0
        1).particles.max_particles := by
    norm_num [oneParticleSolver]
  exact ⟨hcap, C7_float_box_insertion _ ![0.6, 0.6, 0.6] 0 0.001 (fun _ => 0) hcap⟩

end SPH